import Mathlib

set_option maxHeartbeats 1000000

namespace Nekopara

/-! Shallow embedding of the NekoparaScnExtractor extraction engine
(`readjson.py`).  JSON values loaded by the host JSON parser are modelled
by the inductive type `J`; each Python function of the engine is translated
to a Lean function of the same name. -/

/-- JSON values as produced by the host JSON parser.  Numbers are modelled
as integers; no behaviour checked here depends on numeric contents. -/
inductive J where
  | null : J
  | bool (b : Bool) : J
  | num (n : Int) : J
  | str (s : String) : J
  | arr (items : List J) : J
  | obj (fields : List (String × J)) : J

/-- Dictionary lookup, `d.get(key)` on a parsed JSON object. -/
def jlookup (fields : List (String × J)) (key : String) : Option J :=
  match fields with
  | [] => none
  | kv :: rest => if kv.1 = key then some kv.2 else jlookup rest key

/-- The constant `TEXT_MARKERS_TO_REMOVE` from the source, in the same order. -/
def TEXT_MARKERS_TO_REMOVE : List String := ["%fSourceHanSansCN-M;", "%f;"]

/-- Character-list worker for `str.replace(marker, "")`: removes occurrences
of `m` scanning left to right, non-overlapping.  The fuel argument makes the
recursion structural; each step consumes at least one character, so fuel equal
to the length of the scanned list is always enough. -/
def remove_marker_chars (m : List Char) : Nat → List Char → List Char
  | 0, l => l
  | _ + 1, [] => []
  | fuel + 1, c :: rest =>
    if m.isPrefixOf (c :: rest) then
      remove_marker_chars m fuel (List.drop (m.length - 1) rest)
    else
      c :: remove_marker_chars m fuel rest

/-- Host-language `text.replace(m, "")` for a non-empty pattern `m`
(the two markers are never empty). -/
def remove_marker (m : String) (s : String) : String :=
  if m.data.isEmpty then s
  else String.mk (remove_marker_chars m.data s.data.length s.data)

/-- The function `clean_text_markers`: strip every occurrence of each marker, first
marker first, passing `None` through. -/
def clean_text_markers : Option String → Option String
  | none => none
  | some t => some (TEXT_MARKERS_TO_REMOVE.foldl (fun acc m => remove_marker m acc) t)

/-- Membership of one character in the ranges of `ZH_RE`. -/
def is_zh_char (c : Char) : Bool :=
  (0x3400 ≤ c.toNat && c.toNat ≤ 0x4dbf) ||
  (0x4e00 ≤ c.toNat && c.toNat ≤ 0x9fff) ||
  (0xf900 ≤ c.toNat && c.toNat ≤ 0xfaff)

/-- The test `ZH_RE.search(text)`: the text contains at least one CJK codepoint. -/
def zh_search (s : String) : Bool := s.data.any is_zh_char

/-- The predicate `is_language_item`: a list of length at least 2 whose second element is
a string. -/
def is_language_item : J → Bool
  | J.arr l => decide (2 ≤ l.length) && (match l.get? 1 with
      | some (J.str _) => true
      | _ => false)
  | _ => false

/-- Worker for `find_language_list`: scan the fields of the entry in order. -/
def find_language_list_fields : List J → Option (List J)
  | [] => none
  | f :: rest =>
    match f with
    | J.arr items =>
      if !items.isEmpty && items.all is_language_item then some items
      else find_language_list_fields rest
    | _ => find_language_list_fields rest

/-- The function `find_language_list`: first field of the entry that is a non-empty list
whose elements are all Language Items; `None` for non-list entries. -/
def find_language_list : J → Option (List J)
  | J.arr fields => find_language_list_fields fields
  | _ => none

/-- Reading `item[1]` as a string; valid Language Items always hit the
string case, other shapes read as the empty string. -/
def item_text : J → String
  | J.arr l =>
    match l.get? 1 with
    | some (J.str s) => s
    | _ => ""
  | _ => ""

/-- Reading `selected[0] if len(selected) > 0 and isinstance(selected[0], str) else None`. -/
def item_char : J → Option String
  | J.arr l =>
    match l.get? 0 with
    | some (J.str s) => some s
    | _ => none
  | _ => none

/-- The constant `PREFERRED_ZH_INDEXES` from the source. -/
def PREFERRED_ZH_INDEXES : List Nat := [3, 2]

/-- The first loop of `pick_language_entry`: try each preferred index in
order, returning the item there when it is a valid Language Item with
non-empty text, continuing the loop otherwise. -/
def pick_preferred (language_list : List J) : List Nat → Option J
  | [] => none
  | index :: rest =>
    match language_list.get? index with
    | some item =>
      if is_language_item item && item_text item != "" then some item
      else pick_preferred language_list rest
    | none => pick_preferred language_list rest

/-- The function `pick_language_entry`: preferred indices, then forward CJK scan, then
reverse non-empty scan, else `None`. -/
def pick_language_entry (language_list : List J) : Option J :=
  match pick_preferred language_list PREFERRED_ZH_INDEXES with
  | some item => some item
  | none =>
    match language_list.find? (fun item =>
        is_language_item item && item_text item != "" && zh_search (item_text item)) with
    | some item => some item
    | none =>
      language_list.reverse.find? (fun item =>
        is_language_item item && item_text item != "")

/-- The index loop of `pick_fallback_character`: first in-range index whose
value is a non-empty string. -/
def fallback_scan (text_entry : List J) : List Nat → Option String
  | [] => none
  | index :: rest =>
    match text_entry.get? index with
    | some (J.str value) =>
      if value != "" then some value else fallback_scan text_entry rest
    | _ => fallback_scan text_entry rest

/-- The function `pick_fallback_character` with its `prefer_index1` flag selecting the
scan order `[1, 0]` or `[0, 1]`. -/
def pick_fallback_character (text_entry : List J) (prefer_index1 : Bool) : Option String :=
  fallback_scan text_entry (if prefer_index1 then [1, 0] else [0, 1])

/-- The compatibility-fallback tail of `extract_character_and_text`
(the three `return` statements after the language-list branch). -/
def legacy_fallback (fields : List J) : Option String × Option String :=
  match fields.get? 2 with
  | some (J.str s) => (pick_fallback_character fields true, clean_text_markers (some s))
  | _ =>
    match fields.get? 1 with
    | some (J.str s) => (pick_fallback_character fields true, clean_text_markers (some s))
    | _ => (pick_fallback_character fields true, none)

/-- The body of `extract_character_and_text` once the entry is known to be a
list: a found, non-empty language list with a successful selection returns
the selected pair; otherwise control falls through to the compatibility
fallback. -/
def extract_from_fields (fields : List J) : Option String × Option String :=
  match find_language_list (J.arr fields) with
  | some language_list =>
    if language_list.isEmpty then legacy_fallback fields
    else
      match pick_language_entry language_list with
      | some selected =>
        let character :=
          match item_char selected with
          | some s => if s = "" then pick_fallback_character fields false else some s
          | none => pick_fallback_character fields false
        (character, clean_text_markers (some (item_text selected)))
      | none => legacy_fallback fields
  | none => legacy_fallback fields

/-- The function `extract_character_and_text`: resolve a Dialogue Entry to a
(character, text) pair; non-list entries give `(None, None)`. -/
def extract_character_and_text (text_entry : J) : Option String × Option String :=
  match text_entry with
  | J.arr fields => extract_from_fields fields
  | _ => (none, none)

/-! ## Scene walker -/

abbrev TextSlot := List (Option String)

/-- The pair of accumulators `(user_text, user_select)` built by
`extract_file` while walking the scenes. -/
abbrev WalkState := List (Option TextSlot) × List (Option J)

/-- The function `ensure_scene_slot`: append `None` until the container covers `index`. -/
def ensure_scene_slot (container : List (Option α)) (index : Nat) : List (Option α) :=
  container ++ List.replicate (index + 1 - container.length) none

/-- Running `ensure_scene_slot(c, i)` followed by `c[i] = v`. -/
def set_slot (container : List (Option α)) (index : Nat) (v : Option α) : List (Option α) :=
  (ensure_scene_slot container index).set index v

/-- The inner loop over `scene_texts`: append character then text for every
Dialogue Entry, in order. -/
def flatten_entries : List J → List (Option String)
  | [] => []
  | e :: rest =>
    (extract_character_and_text e).1 :: (extract_character_and_text e).2 :: flatten_entries rest

/-- What a scene contributes to `user_text`: `scene.get("texts")` when the
scene is a dictionary and the value is a list, flattened entry by entry. -/
def scene_texts_payload (scene : J) : Option TextSlot :=
  match scene with
  | J.obj fields =>
    match jlookup fields "texts" with
    | some (J.arr entries) => some (flatten_entries entries)
    | _ => none
  | _ => none

/-- What a scene contributes to `user_select`: the raw value of the
`selects` key when present (a presence check, not a type check). -/
def scene_selects_payload (scene : J) : Option J :=
  match scene with
  | J.obj fields => jlookup fields "selects"
  | _ => none

/-- One iteration of the scene loop of `extract_file`: non-dictionary scenes
contribute nothing, the texts part touches only `user_text` and the selects
part only `user_select`. -/
def process_scene (st : WalkState) (scene_index : Nat) (scene : J) : WalkState :=
  let st1 :=
    match scene_texts_payload scene with
    | some payload => (set_slot st.1 scene_index (some payload), st.2)
    | none => st
  match scene_selects_payload scene with
  | some v => (st1.1, set_slot st1.2 scene_index (some v))
  | none => st1

/-- The scene loop of `extract_file`, starting at scene index `i`. -/
def walk_from (i : Nat) (scenes : List J) (st : WalkState) : WalkState :=
  match scenes with
  | [] => st
  | scene :: rest => walk_from (i + 1) rest (process_scene st i scene)

/-- The whole scene loop of `extract_file` on empty accumulators. -/
def walk_scenes (scenes : List J) : WalkState := walk_from 0 scenes ([], [])

/-! ## Output formatting -/

/-- Modelled from the spec: the out-of-scope host `json.dumps` for one
string with `ensure_ascii = False` escapes the quote, the backslash and
control characters and keeps every other character literal. -/
def json_escape_char (c : Char) : String :=
  if c = Char.ofNat 34 then String.mk [Char.ofNat 92, Char.ofNat 34]
  else if c = Char.ofNat 92 then String.mk [Char.ofNat 92, Char.ofNat 92]
  else if c = Char.ofNat 10 then String.mk [Char.ofNat 92, 'n']
  else if c = Char.ofNat 9 then String.mk [Char.ofNat 92, 't']
  else if c = Char.ofNat 13 then String.mk [Char.ofNat 92, 'r']
  else if c = Char.ofNat 8 then String.mk [Char.ofNat 92, 'b']
  else if c = Char.ofNat 12 then String.mk [Char.ofNat 92, 'f']
  else if c.toNat < 32 then
    String.mk [Char.ofNat 92, 'u', '0', '0',
      (if c.toNat / 16 < 10 then Char.ofNat (48 + c.toNat / 16) else Char.ofNat (87 + c.toNat / 16)),
      (if c.toNat % 16 < 10 then Char.ofNat (48 + c.toNat % 16) else Char.ofNat (87 + c.toNat % 16))]
  else String.singleton c

/-- Modelled from the spec: host `json.dumps` of a string value. -/
def json_dump_string (s : String) : String :=
  String.mk [Char.ofNat 34] ++ String.join (s.data.map json_escape_char) ++ String.mk [Char.ofNat 34]

/-- Host `json.dumps(value, ensure_ascii = False)` for the flat text-slot values,
which are either `None` or strings. -/
def json_dump_opt_string : Option String → String
  | none => "null"
  | some s => json_dump_string s

/-- The function `format_scene`: a null slot prints as an indented `null`; a text slot
prints as a bracketed block whose odd-indexed lines get two extra spaces. -/
def format_scene (scene_data : Option TextSlot) : String :=
  match scene_data with
  | none => "\n  null"
  | some items =>
    let formatted := items.enum.map fun iv =>
      if iv.1 % 2 == 0 then json_dump_opt_string iv.2 else "  " ++ json_dump_opt_string iv.2
    "\n  [\n    " ++ String.intercalate ",\n    " formatted ++ "\n  ]"

/-- The function `build_text_output`: the custom semi-structured text artifact. -/
def build_text_output (text_payload : List (Option TextSlot)) : String :=
  "[" ++ String.intercalate "," (text_payload.map format_scene) ++ "\n]"

/-- A run of `n` spaces. -/
def indent_spaces (n : Nat) : String := String.mk (List.replicate n ' ')

/-- Modelled from the spec: the out-of-scope host `json.dump` with
`indent = 2` and `ensure_ascii = False`.  Empty containers print without a
newline, non-empty containers put each member on its own indented line.
The first argument is fuel making the nested recursion structural. -/
def json_dump_fuel : Nat → Nat → J → String
  | 0, _, _ => ""
  | fuel + 1, ind, v =>
    match v with
    | J.null => "null"
    | J.bool b => cond b "true" "false"
    | J.num n => toString n
    | J.str s => json_dump_string s
    | J.arr [] => "[]"
    | J.arr items =>
      "[\n" ++
        String.intercalate ",\n"
          (items.map fun x => indent_spaces (ind + 2) ++ json_dump_fuel fuel (ind + 2) x) ++
        "\n" ++ indent_spaces ind ++ "]"
    | J.obj [] => "\x7b\x7d"
    | J.obj fields =>
      "\x7b\n" ++
        String.intercalate ",\n"
          (fields.map fun kv =>
            indent_spaces (ind + 2) ++ json_dump_string kv.1 ++ ": " ++
              json_dump_fuel fuel (ind + 2) kv.2) ++
        "\n" ++ indent_spaces ind ++ "\x7d"

mutual

/-- Size of a JSON value, used as recursion fuel for the serializer. -/
def jsize : J → Nat
  | J.null => 1
  | J.bool _ => 1
  | J.num _ => 1
  | J.str _ => 1
  | J.arr items => 1 + jsize_list items
  | J.obj fields => 1 + jsize_fields fields

/-- Total size of the values of a JSON array. -/
def jsize_list : List J → Nat
  | [] => 0
  | x :: xs => jsize x + jsize_list xs

/-- Total size of the values of a JSON object. -/
def jsize_fields : List (String × J) → Nat
  | [] => 0
  | kv :: rest => jsize kv.2 + jsize_fields rest

end

/-- Modelled from the spec: `json.dump(value, indent = 2, ensure_ascii = False)`. -/
def json_dump_indent2 (v : J) : String := json_dump_fuel (jsize v) 0 v

/-- The select artifact: `user_select` dumped as indented JSON, null padding
serializing as `null`. -/
def dump_select (user_select : List (Option J)) : String :=
  json_dump_indent2 (J.arr (user_select.map fun slot => slot.getD J.null))

/-! ## Per-file extraction -/

/-- Reading `origin_json.get("scenes") if isinstance(origin_json, dict) else None`,
kept only when the value is a list (the `isinstance(scenes, list)` test). -/
def get_scenes (origin_json : J) : Option (List J) :=
  match origin_json with
  | J.obj fields =>
    match jlookup fields "scenes" with
    | some (J.arr scenes) => some (scenes)
    | _ => none
  | _ => none

/-- The two artifacts written for one source file, plus which log line the
run produced for it (`skipped` true for the "skipped (no scenes)" line,
false for the "extract DONE!" line). -/
structure FileOutput where
  textArtifact : String
  selectArtifact : String
  skipped : Bool
  deriving DecidableEq

/-- The function `extract_file` without the I/O shell: both artifacts are produced even
when the document has no usable `scenes` list. -/
def extract_file (origin_json : J) : FileOutput :=
  match get_scenes origin_json with
  | none => ⟨build_text_output [], dump_select [], true⟩
  | some scenes =>
    ⟨build_text_output (walk_scenes scenes).1, dump_select (walk_scenes scenes).2, false⟩

/-! ## Change detector and driver -/

/-- The function `collect_modified_files` over an abstract file system: `src_mtime name`
is the modification time of the source file for `name` when it exists, and
`last_extract_mtime` the modification time of the persisted timestamp file
when that exists. -/
def collect_modified_files (src_mtime : String → Option Int) (last_extract_mtime : Option Int) :
    List String → List String
  | [] => []
  | name :: rest =>
    match src_mtime name with
    | none => collect_modified_files src_mtime last_extract_mtime rest
    | some t =>
      if (match last_extract_mtime with
          | none => true
          | some l => decide (t > l)) then
        name :: collect_modified_files src_mtime last_extract_mtime rest
      else
        collect_modified_files src_mtime last_extract_mtime rest

/-- The file-system state seen and produced by one run of `main`: source
modification times and contents, the persisted timestamp marker, and the
written artifacts per source filename. -/
structure SysState where
  srcMtime : String → Option Int
  srcDoc : String → J
  lastExtract : Option Int
  outputs : String → Option FileOutput

/-- One run of `main` at time `now`: collect the modified files, rewrite the
artifacts of exactly those files, and overwrite the persisted timestamp iff
at least one file was processed.  Also returns the processed list; the run
logs "No file updated" exactly when that list is empty. -/
def run_main (st : SysState) (now : Int) (manifest : List String) : SysState × List String :=
  ({ srcMtime := st.srcMtime
     srcDoc := st.srcDoc
     lastExtract :=
       if (collect_modified_files st.srcMtime st.lastExtract manifest).isEmpty
       then st.lastExtract else some now
     outputs := fun name =>
       if name ∈ collect_modified_files st.srcMtime st.lastExtract manifest
       then some (extract_file (st.srcDoc name)) else st.outputs name },
   collect_modified_files st.srcMtime st.lastExtract manifest)

/-! ## Specification-side definitions, written from the words of the spec,
for the refinement claims C1 and C4. -/

/-- The value `option_or a b` is `a` unless it is `None`, else `b`. -/
def option_or (a b : Option α) : Option α :=
  match a with
  | some x => some x
  | none => b

/-- From the words of claim C1: the item at a fixed preference index, when
that index is in range and the item is a valid Language Item with non-empty
text. -/
def try_preferred_index (language_list : List J) (index : Nat) : Option J :=
  match language_list.get? index with
  | some item =>
    if is_language_item item && item_text item != "" then some item else none
  | none => none

/-- From the words of claim C1: index 3, else index 2, else the first item in
forward order with non-empty text containing a CJK codepoint, else the first
item in reverse order with non-empty text, else nothing. -/
def pick_language_entry_spec (language_list : List J) : Option J :=
  option_or (try_preferred_index language_list 3)
    (option_or (try_preferred_index language_list 2)
      (option_or (language_list.find? fun item =>
          item_text item != "" && zh_search (item_text item))
        (language_list.reverse.find? fun item => item_text item != "")))

/-- From the words of claim C4: a field qualifies as a language list when it
is a non-empty list in which every element is a list of length at least 2
whose second element is a string. -/
def qualifies_as_language_list (f : J) : Bool :=
  match f with
  | J.arr items =>
    !items.isEmpty && items.all fun i =>
      match i with
      | J.arr l => decide (2 ≤ l.length) && (match l.get? 1 with
          | some (J.str _) => true
          | _ => false)
      | _ => false
  | _ => false

/-- The list carried by a JSON array value. -/
def as_list : J → Option (List J)
  | J.arr l => some l
  | _ => none

/-! ## Helper lemmas -/

lemma find?_congr {α} (p q : α → Bool) (l : List α) (h : ∀ x ∈ l, p x = q x) :
    l.find? p = l.find? q := by
  induction l with
  | nil => rfl
  | cons a t ih =>
    rw [List.find?_cons, List.find?_cons, h a (List.mem_cons_self a t)]
    cases hq : q a
    · exact ih fun x hx => h x (List.mem_cons_of_mem a hx)
    · rfl

lemma pick_preferred_nil (l : List J) : pick_preferred l [] = none := rfl

lemma pick_preferred_cons (l : List J) (i : Nat) (idxs : List Nat) :
    pick_preferred l (i :: idxs) = option_or (try_preferred_index l i) (pick_preferred l idxs) := by
  rw [pick_preferred, try_preferred_index]
  cases hg : l.get? i
  · simp [option_or]
  · rename_i item
    cases hc : is_language_item item && item_text item != "" <;> simp [hc, option_or]

lemma pick_preferred_none (ll : List J) (h : ∀ item ∈ ll, item_text item = "") :
    ∀ idxs, pick_preferred ll idxs = none := by
  intro idxs
  induction idxs with
  | nil => rfl
  | cons i rest ih =>
    rw [pick_preferred]
    cases hg : ll.get? i
    · exact ih
    · rename_i item
      have ht := h item (List.get?_mem hg)
      simp [ht, ih]

lemma pick_language_entry_none (ll : List J) (h : ∀ item ∈ ll, item_text item = "") :
    pick_language_entry ll = none := by
  have h1 := pick_preferred_none ll h PREFERRED_ZH_INDEXES
  have h2 : ll.find? (fun item =>
      is_language_item item && item_text item != "" && zh_search (item_text item)) = none :=
    List.find?_eq_none.mpr fun x hx => by simp [h x hx]
  have h3 : ll.reverse.find? (fun item => is_language_item item && item_text item != "") = none :=
    List.find?_eq_none.mpr fun x hx => by simp [h x (List.mem_reverse.mp hx)]
  simp [pick_language_entry, h1, h2, h3]

lemma is_language_item_inline (i : J) :
    (match i with
     | J.arr l => decide (2 ≤ l.length) && (match l.get? 1 with
         | some (J.str _) => true
         | _ => false)
     | _ => false) = is_language_item i := by
  cases i <;> rfl

lemma find_fields_eq (fields : List J) :
    find_language_list_fields fields = (fields.find? qualifies_as_language_list).bind as_list := by
  induction fields with
  | nil => rfl
  | cons f rest ih =>
    rw [List.find?_cons]
    cases f with
    | arr items =>
      have hq : qualifies_as_language_list (J.arr items)
          = (!items.isEmpty && items.all is_language_item) := by
        simp only [qualifies_as_language_list, is_language_item_inline]
      rw [find_language_list_fields, hq]
      cases hc : !items.isEmpty && items.all is_language_item <;> simp [hc, ih, as_list]
    | null => simpa [find_language_list_fields, qualifies_as_language_list] using ih
    | bool b => simpa [find_language_list_fields, qualifies_as_language_list] using ih
    | num n => simpa [find_language_list_fields, qualifies_as_language_list] using ih
    | str s => simpa [find_language_list_fields, qualifies_as_language_list] using ih
    | obj o => simpa [find_language_list_fields, qualifies_as_language_list] using ih

/-! ## Scene walker analysis -/

/-- Writing an optional payload at index `i`: present payloads overwrite
the slot, absent ones leave the container untouched. -/
def apply_slot {α} (c : List (Option α)) (i : Nat) (gv : Option α) : List (Option α) :=
  match gv with
  | some v => set_slot c i (some v)
  | none => c

/-- Prepending one scene's optional payload to the slots of the later
scenes: when no later scene contributed, an absent payload contributes no
slot either. -/
def cons_slot {α} (gv : Option α) (tail : List (Option α)) : List (Option α) :=
  match tail with
  | [] =>
    match gv with
    | some v => [some v]
    | none => []
  | e :: ts => gv :: e :: ts

/-- The slot sequence the walker builds for one payload function: one slot
per scene up to the last scene with a payload, holding the payload where
present and null elsewhere. -/
def expected_slots {α} (g : J → Option α) : List J → List (Option α)
  | [] => []
  | s :: rest => cons_slot (g s) (expected_slots g rest)

/-- Highest index of a scene satisfying `p`. -/
def highest_index (p : J → Bool) : List J → Option Nat
  | [] => none
  | s :: rest =>
    match highest_index p rest with
    | some k => some (k + 1)
    | none => if p s then some 0 else none

/-- One more than the highest contributing index, zero when there is none. -/
def out_len : Option Nat → Nat
  | none => 0
  | some k => k + 1

/-- The scene is a dictionary whose `texts` value is a list. -/
def scene_has_texts (s : J) : Bool := (scene_texts_payload s).isSome

/-- The scene is a dictionary with a `selects` key. -/
def scene_has_selects (s : J) : Bool := (scene_selects_payload s).isSome

/-- Appending `ext` to `cur` with the slots of `ext` starting at absolute
index `i`, padding the gap with nulls; nothing happens when `ext` is
empty. -/
def extend_out {α} (cur : List (Option α)) (i : Nat) (ext : List (Option α)) : List (Option α) :=
  match ext with
  | [] => cur
  | _ :: _ => cur ++ List.replicate (i - cur.length) none ++ ext

lemma replicate_set {α} (n : Nat) (a b : α) :
    (List.replicate (n + 1) a).set n b = List.replicate n a ++ [b] := by
  induction n with
  | zero => rfl
  | succ k ih =>
    rw [List.replicate_succ a (k + 1), List.set_cons_succ, ih, List.replicate_succ a k,
      List.cons_append]

lemma set_slot_append {α} (c : List (Option α)) (i : Nat) (v : Option α) (h : c.length ≤ i) :
    set_slot c i v = c ++ List.replicate (i - c.length) none ++ [v] := by
  rw [set_slot, ensure_scene_slot, List.set_append_right i v h,
    show i + 1 - c.length = (i - c.length) + 1 by omega, replicate_set, List.append_assoc]

lemma set_slot_length {α} (c : List (Option α)) (i : Nat) (v : Option α) (h : c.length ≤ i) :
    (set_slot c i v).length = i + 1 := by
  rw [set_slot_append c i v h]
  simp
  omega

lemma process_scene_fst (st : WalkState) (i : Nat) (s : J) :
    (process_scene st i s).1 = apply_slot st.1 i (scene_texts_payload s) := by
  unfold process_scene apply_slot
  cases scene_texts_payload s <;> cases scene_selects_payload s <;> rfl

lemma process_scene_snd (st : WalkState) (i : Nat) (s : J) :
    (process_scene st i s).2 = apply_slot st.2 i (scene_selects_payload s) := by
  unfold process_scene apply_slot
  cases scene_texts_payload s <;> cases scene_selects_payload s <;> rfl

lemma apply_slot_length_le {α} (c : List (Option α)) (i : Nat) (gv : Option α)
    (h : c.length ≤ i) : (apply_slot c i gv).length ≤ i + 1 := by
  cases gv with
  | none => exact Nat.le_succ_of_le h
  | some v =>
    rw [show apply_slot c i (some v) = set_slot c i (some v) from rfl,
      set_slot_length c i _ h]

lemma extend_out_step {α} (c : List (Option α)) (i : Nat) (gv : Option α)
    (tail : List (Option α)) (h : c.length ≤ i) :
    extend_out (apply_slot c i gv) (i + 1) tail = extend_out c i (cons_slot gv tail) := by
  cases gv with
  | none =>
    cases tail with
    | nil => rfl
    | cons e ts =>
      show c ++ List.replicate (i + 1 - c.length) none ++ (e :: ts)
          = c ++ List.replicate (i - c.length) none ++ (none :: e :: ts)
      rw [show i + 1 - c.length = (i - c.length) + 1 by omega, List.replicate_succ' ..]
      simp
  | some v =>
    cases tail with
    | nil => exact set_slot_append c i (some v) h
    | cons e ts =>
      show set_slot c i (some v)
            ++ List.replicate (i + 1 - (set_slot c i (some v)).length) none ++ (e :: ts)
          = c ++ List.replicate (i - c.length) none ++ (some v :: e :: ts)
      rw [set_slot_length c i (some v) h, Nat.sub_self, List.replicate_zero,
        set_slot_append c i (some v) h]
      simp

lemma walk_from_spec (scenes : List J) : ∀ (i : Nat) (st : WalkState),
    st.1.length ≤ i → st.2.length ≤ i →
    walk_from i scenes st
      = (extend_out st.1 i (expected_slots scene_texts_payload scenes),
         extend_out st.2 i (expected_slots scene_selects_payload scenes)) := by
  induction scenes with
  | nil => intro i st h1 h2; rfl
  | cons s rest ih =>
    intro i st h1 h2
    rw [walk_from]
    have hl1 : (process_scene st i s).1.length ≤ i + 1 := by
      rw [process_scene_fst]
      exact apply_slot_length_le st.1 i _ h1
    have hl2 : (process_scene st i s).2.length ≤ i + 1 := by
      rw [process_scene_snd]
      exact apply_slot_length_le st.2 i _ h2
    rw [ih (i + 1) _ hl1 hl2]
    congr 1
    · rw [process_scene_fst, extend_out_step st.1 i (scene_texts_payload s) _ h1,
        expected_slots]
    · rw [process_scene_snd, extend_out_step st.2 i (scene_selects_payload s) _ h2,
        expected_slots]

lemma walk_scenes_spec (scenes : List J) :
    walk_scenes scenes
      = (expected_slots scene_texts_payload scenes,
         expected_slots scene_selects_payload scenes) := by
  rw [walk_scenes, walk_from_spec scenes 0 ([], []) (by simp) (by simp)]
  congr 1
  · cases h : expected_slots scene_texts_payload scenes <;> simp [extend_out, h]
  · cases h : expected_slots scene_selects_payload scenes <;> simp [extend_out, h]

lemma expected_slots_length {α} (g : J → Option α) (l : List J) :
    (expected_slots g l).length = out_len (highest_index (fun s => (g s).isSome) l) := by
  induction l with
  | nil => rfl
  | cons s rest ih =>
    rw [expected_slots, highest_index]
    cases hE : expected_slots g rest with
    | nil =>
      rw [hE] at ih
      have hnone : highest_index (fun s => (g s).isSome) rest = none := by
        cases hh : highest_index (fun s => (g s).isSome) rest
        · rfl
        · rw [hh] at ih; simp [out_len] at ih
      rw [hnone]
      cases hg : g s <;> simp [cons_slot, out_len, hg]
    | cons e ts =>
      rw [hE] at ih
      cases hh : highest_index (fun s => (g s).isSome) rest with
      | none => rw [hh] at ih; simp [out_len] at ih
      | some k =>
        rw [hh] at ih
        simp [cons_slot, out_len] at ih ⊢
        omega

lemma expected_slots_get {α} (g : J → Option α) (l : List J) :
    ∀ j, j < (expected_slots g l).length →
      (expected_slots g l).get? j = some ((l.get? j).bind g) := by
  induction l with
  | nil => intro j hj; simp [expected_slots] at hj
  | cons s rest ih =>
    intro j hj
    rw [expected_slots] at hj ⊢
    cases hE : expected_slots g rest with
    | nil =>
      rw [hE] at hj
      cases hg : g s with
      | none => rw [hg] at hj; simp [cons_slot] at hj
      | some v =>
        rw [hg] at hj
        have hj0 : j = 0 := by
          simp [cons_slot] at hj
          omega
        subst hj0
        simp [cons_slot, hg]
    | cons e ts =>
      rw [hE] at hj
      cases j with
      | zero => simp [cons_slot]
      | succ k =>
        have hk : k < (expected_slots g rest).length := by
          rw [hE]
          simp [cons_slot] at hj ⊢
          omega
        have hrec := ih k hk
        rw [hE] at hrec
        simpa [cons_slot] using hrec

/-! ## Claim theorems -/

/-- C7: marker cleaning passes `None` through, strips every occurrence of
`%fSourceHanSansCN-M;` first and of `%f;` second, and in particular cleans
`%fSourceHanSansCN-M;Hello%f;` to `Hello`. -/
theorem c7_clean_text_markers :
    clean_text_markers none = none
  ∧ (∀ s : String, clean_text_markers (some s)
      = some (remove_marker "%f;" (remove_marker "%fSourceHanSansCN-M;" s)))
  ∧ clean_text_markers (some "%fSourceHanSansCN-M;Hello%f;") = some "Hello" :=
  ⟨rfl, fun _ => rfl, by decide⟩

/-- C2 counterexample: the legacy two-element entry `["Amy", "Hi"]` does not
extract character `Amy`: the fallback character lookup prefers index 1,
which holds the text itself. -/
theorem c2_counterexample :
    extract_character_and_text (J.arr [J.str "Amy", J.str "Hi"]) ≠ (some "Amy", some "Hi") := by
  decide

/-- C2 amended: the entry `["Amy", "Hi"]` extracts character `Hi` and text
`Hi`, because the legacy branch calls `pick_fallback_character` with
`prefer_index1` set and index 1 holds the non-empty string `Hi`. -/
theorem c2_legacy_two_element :
    extract_character_and_text (J.arr [J.str "Amy", J.str "Hi"]) = (some "Hi", some "Hi") := by
  decide

/-- C10: a Dialogue Entry whose only language item carries the non-empty raw
text `%f;` is selected by the reverse-scan tier, yet extraction returns the
empty string as text, because marker cleaning runs after tier selection. -/
theorem c10_marker_only_text :
    find_language_list (J.arr [J.arr [J.arr [J.str "A", J.str "%f;"]]])
        = some [J.arr [J.str "A", J.str "%f;"]]
  ∧ pick_language_entry [J.arr [J.str "A", J.str "%f;"]]
        = some (J.arr [J.str "A", J.str "%f;"])
  ∧ item_text (J.arr [J.str "A", J.str "%f;"]) ≠ ""
  ∧ extract_character_and_text (J.arr [J.arr [J.arr [J.str "A", J.str "%f;"]]])
        = (some "A", some "") :=
  ⟨rfl, rfl, by decide, by decide⟩

/-- C8: a document whose `scenes` field is absent or not a list still yields
both artifacts, the text artifact being exactly bracket, newline, bracket
and the select artifact `[]`, with the file reported as skipped. -/
theorem c8_no_scenes (doc : J) (h : get_scenes doc = none) :
    extract_file doc = ⟨"[\n]", "[]", true⟩ := by
  unfold extract_file
  rw [h]
  decide

/-- C8 witness: the empty document. -/
theorem c8_no_scenes_witness :
    get_scenes (J.obj []) = none ∧ extract_file (J.obj []) = ⟨"[\n]", "[]", true⟩ :=
  ⟨rfl, c8_no_scenes (J.obj []) rfl⟩

/-- C6: the change detector skips missing source files silently; with no
persisted timestamp it returns exactly the existing files, in manifest
order; with a persisted timestamp it returns, in order, exactly the
existing files whose modification time strictly exceeds it. -/
theorem c6_collect_modified_files (src_mtime : String → Option Int) (files : List String) :
    collect_modified_files src_mtime none files
        = files.filter (fun name => (src_mtime name).isSome)
  ∧ ∀ last : Int, collect_modified_files src_mtime (some last) files
        = files.filter (fun name =>
            match src_mtime name with
            | some t => decide (t > last)
            | none => false) := by
  constructor
  · induction files with
    | nil => rfl
    | cons name rest ih =>
      rw [collect_modified_files, List.filter_cons]
      cases h : src_mtime name <;> simp [h, ih]
  · intro last
    induction files with
    | nil => rfl
    | cons name rest ih =>
      rw [collect_modified_files, List.filter_cons]
      cases h : src_mtime name
      · simp [h, ih]
      · rename_i t
        cases hgt : decide (t > last) <;> simp [h, hgt, ih]

/-- C4: the Entry Resolver returns the first field, in the entry's natural
field order, that is a non-empty list in which every element is a list of
length at least 2 whose second element is a string, and returns nothing
when the entry is not itself a list or no such field exists. -/
theorem c4_entry_resolver :
    (∀ fields : List J, find_language_list (J.arr fields)
        = (fields.find? qualifies_as_language_list).bind as_list)
  ∧ ∀ e : J, as_list e = none → find_language_list e = none := by
  constructor
  · intro fields
    exact find_fields_eq fields
  · intro e h
    cases e with
    | arr l => exact Option.noConfusion h
    | null => rfl
    | bool b => rfl
    | num n => rfl
    | str s => rfl
    | obj o => rfl

/-- C4 witness: a non-list entry resolves to nothing. -/
theorem c4_entry_resolver_witness :
    find_language_list (J.arr [J.str "a", J.arr [J.arr [J.str "N", J.str "t"]]])
        = ([J.str "a", J.arr [J.arr [J.str "N", J.str "t"]]].find?
            qualifies_as_language_list).bind as_list
  ∧ find_language_list (J.str "x") = none :=
  ⟨c4_entry_resolver.1 [J.str "a", J.arr [J.arr [J.str "N", J.str "t"]]],
   c4_entry_resolver.2 (J.str "x") rfl⟩

/-- C3 counterexample: the entry `["Bob", "Txt", [["A", ""]]]` has a
language list none of whose items has non-empty text, yet extraction does
not yield null character and null text: it falls through to the legacy
fallback and returns `("Txt", "Txt")`. -/
theorem c3_counterexample :
    find_language_list (J.arr [J.str "Bob", J.str "Txt", J.arr [J.arr [J.str "A", J.str ""]]])
        = some [J.arr [J.str "A", J.str ""]]
  ∧ item_text (J.arr [J.str "A", J.str ""]) = ""
  ∧ extract_character_and_text
        (J.arr [J.str "Bob", J.str "Txt", J.arr [J.arr [J.str "A", J.str ""]]])
        ≠ (none, none)
  ∧ extract_character_and_text
        (J.arr [J.str "Bob", J.str "Txt", J.arr [J.arr [J.str "A", J.str ""]]])
        = (some "Txt", some "Txt") :=
  ⟨rfl, rfl, by decide, by decide⟩

/-- C3 amended: when the Entry Resolver finds a language list none of whose
items has non-empty text, the Language Selector yields no selection and the
entry falls through to the legacy Fallback Resolver reading indices 2/1
directly; the result is null character and null text only when that
fallback also finds nothing. -/
theorem c3_empty_language_list_falls_back (fields ll : List J)
    (hfind : find_language_list (J.arr fields) = some ll)
    (hempty : ∀ item ∈ ll, item_text item = "") :
    extract_character_and_text (J.arr fields) = legacy_fallback fields := by
  have hpick := pick_language_entry_none ll hempty
  show extract_from_fields fields = legacy_fallback fields
  unfold extract_from_fields
  rw [hfind]
  cases hE : ll.isEmpty <;> simp [hE, hpick]

/-- C3 witness: the counterexample entry satisfies the amended statement. -/
theorem c3_empty_language_list_falls_back_witness :
    extract_character_and_text
        (J.arr [J.str "Bob", J.str "Txt", J.arr [J.arr [J.str "A", J.str ""]]])
      = legacy_fallback [J.str "Bob", J.str "Txt", J.arr [J.arr [J.str "A", J.str ""]]] :=
  c3_empty_language_list_falls_back _ _ rfl (by decide)

/-- C1: on a non-empty list of valid Language Items the selector agrees with
the tiered policy of the spec — index 3, else index 2, else the first item
in forward order with non-empty text containing a CJK codepoint, else the
first item in reverse order with non-empty text, else nothing — and on
`[["A", ""], ["B", ""], ["C", "你好"], ["D", ""]]` the selection is
`("C", "你好")`. -/
theorem c1_language_selector :
    (∀ language_list : List J, language_list ≠ [] →
        (∀ item ∈ language_list, is_language_item item = true) →
        pick_language_entry language_list = pick_language_entry_spec language_list)
  ∧ extract_character_and_text (J.arr [J.arr [J.arr [J.str "A", J.str ""],
        J.arr [J.str "B", J.str ""], J.arr [J.str "C", J.str "你好"],
        J.arr [J.str "D", J.str ""]]])
      = (some "C", some "你好") := by
  constructor
  · intro l _ hall
    have h2 : l.find? (fun item =>
          is_language_item item && item_text item != "" && zh_search (item_text item))
        = l.find? (fun item => item_text item != "" && zh_search (item_text item)) :=
      find?_congr _ _ _ fun x hx => by rw [hall x hx]; simp
    have h3 : l.reverse.find? (fun item => is_language_item item && item_text item != "")
        = l.reverse.find? (fun item => item_text item != "") :=
      find?_congr _ _ _ fun x hx => by rw [hall x (List.mem_reverse.mp hx)]; simp
    unfold pick_language_entry pick_language_entry_spec PREFERRED_ZH_INDEXES
    rw [pick_preferred_cons, pick_preferred_cons, pick_preferred_nil, h2, h3]
    rcases h4 : try_preferred_index l 3 with _ | x <;>
      rcases h5 : try_preferred_index l 2 with _ | y <;>
      rcases h6 : l.find? (fun item => item_text item != "" && zh_search (item_text item))
        with _ | z <;>
      simp [option_or]
  · decide

/-- C5: the Scene Walker's outputs are index-aligned with the scene
indices — every slot below the output length is exactly the scene's own
payload, null when the scene contributed none, so slots are never
reordered — and each output's length is one more than the highest scene
index that contributed to it (`texts` for the Text output, `selects` for
the Select output), so a scene contributing only selects never perturbs the
Text length and vice versa. -/
theorem c5_scene_walker (scenes : List J) :
    (walk_scenes scenes).1.length = out_len (highest_index scene_has_texts scenes)
  ∧ (walk_scenes scenes).2.length = out_len (highest_index scene_has_selects scenes)
  ∧ (∀ j, j < (walk_scenes scenes).1.length →
      (walk_scenes scenes).1.get? j = some ((scenes.get? j).bind scene_texts_payload))
  ∧ (∀ j, j < (walk_scenes scenes).2.length →
      (walk_scenes scenes).2.get? j = some ((scenes.get? j).bind scene_selects_payload)) := by
  rw [walk_scenes_spec]
  exact ⟨expected_slots_length scene_texts_payload scenes,
    expected_slots_length scene_selects_payload scenes,
    expected_slots_get scene_texts_payload scenes,
    expected_slots_get scene_selects_payload scenes⟩

/-- C5 witness: with only scene index 2 carrying texts, the Text output has
length 3 and indices 0 and 1 hold null. -/
theorem c5_scene_walker_witness :
    (walk_scenes [J.obj [], J.obj [], J.obj [("texts", J.arr [])]]).1.length = 3
  ∧ (walk_scenes [J.obj [], J.obj [], J.obj [("texts", J.arr [])]]).1.get? 0 = some none
  ∧ (walk_scenes [J.obj [], J.obj [], J.obj [("texts", J.arr [])]]).1.get? 1 = some none := by
  refine ⟨?_, ?_, ?_⟩
  · rw [(c5_scene_walker [J.obj [], J.obj [], J.obj [("texts", J.arr [])]]).1]
    decide
  · rw [(c5_scene_walker [J.obj [], J.obj [], J.obj [("texts", J.arr [])]]).2.2.1 0 (by decide)]
    decide
  · rw [(c5_scene_walker [J.obj [], J.obj [], J.obj [("texts", J.arr [])]]).2.2.1 1 (by decide)]
    decide

lemma collect_stale_none (src_mtime : String → Option Int) (l : Int) (files : List String)
    (h : ∀ name t, src_mtime name = some t → t ≤ l) :
    collect_modified_files src_mtime (some l) files = [] := by
  induction files with
  | nil => rfl
  | cons name rest ih =>
    rw [collect_modified_files]
    cases hm : src_mtime name
    · exact ih
    · rename_i t
      have hd : decide (t > l) = false := by
        have := h name t hm
        simp
        omega
      simp [hd, ih]

lemma run_main_nothing (st : SysState) (now : Int) (manifest : List String)
    (h : collect_modified_files st.srcMtime st.lastExtract manifest = []) :
    run_main st now manifest = (st, []) := by
  unfold run_main
  rw [h]
  have hout : (fun name => if name ∈ ([] : List String)
      then some (extract_file (st.srcDoc name)) else st.outputs name) = st.outputs := by
    funext name
    simp
  rw [hout]
  rfl

/-- C9: a second driver run with no intervening source changes is a no-op:
it processes no files (the code then reports that no file was updated) and
leaves the outputs and the persisted timestamp exactly as the first run
left them. -/
theorem c9_idempotence (st : SysState) (manifest : List String) (now1 now2 : Int)
    (h : ∀ name t, st.srcMtime name = some t → t ≤ now1) :
    run_main (run_main st now1 manifest).1 now2 manifest
      = ((run_main st now1 manifest).1, []) := by
  apply run_main_nothing
  have hsrc : (run_main st now1 manifest).1.srcMtime = st.srcMtime := rfl
  have hlast : (run_main st now1 manifest).1.lastExtract
      = (if (collect_modified_files st.srcMtime st.lastExtract manifest).isEmpty
         then st.lastExtract else some now1) := rfl
  rw [hsrc, hlast]
  cases hE : (collect_modified_files st.srcMtime st.lastExtract manifest).isEmpty with
  | true =>
    simp only [hE, if_true]
    exact List.isEmpty_iff.mp hE
  | false =>
    simp only [hE, Bool.false_eq_true, if_false]
    exact collect_stale_none st.srcMtime now1 manifest h

/-- A concrete one-file state for the idempotence witness. -/
def c9_state : SysState :=
  { srcMtime := fun _ => some 5
    srcDoc := fun _ => J.obj []
    lastExtract := none
    outputs := fun _ => none }

/-- C9 witness: the idempotence theorem applied at a concrete state whose
single source file has modification time 5, first run at time 10, second at
time 20. -/
theorem c9_idempotence_witness :
    run_main (run_main c9_state 10 ["a"]).1 20 ["a"] = ((run_main c9_state 10 ["a"]).1, []) :=
  c9_idempotence c9_state ["a"] 10 20 (by
    intro name t ht
    simp [c9_state] at ht
    omega)

/-- C1 witness: the agreement applied to the example list of the claim. -/
theorem c1_language_selector_witness :
    pick_language_entry [J.arr [J.str "A", J.str ""], J.arr [J.str "B", J.str ""],
        J.arr [J.str "C", J.str "你好"], J.arr [J.str "D", J.str ""]]
      = pick_language_entry_spec [J.arr [J.str "A", J.str ""], J.arr [J.str "B", J.str ""],
        J.arr [J.str "C", J.str "你好"], J.arr [J.str "D", J.str ""]] :=
  c1_language_selector.1 _ (List.cons_ne_nil _ _) (by decide)

end Nekopara
